import Mathlib

/-!
Verification of the audio mixer / waveform monitor programs
(`audio_monitor.py`, `outputs-to-inputs.py`, `outputs-to-inputs-adv.py`).

The Python code is shallowly embedded: pure fragments become Lean
functions over `List`/`Option`/`Int`/`ℚ`; the GTK/GLib stateful parts
become explicit state-passing functions over record types, with GLib
timer sources modelled as a list of live source ids and `subprocess`
invocations modelled as a trace of issued commands whose return codes
are supplied by an environment oracle (and, as in the code, discarded).
-/

namespace AudioShare

/- ------------------------------------------------------------------
   WaveformWidget (audio_monitor.py, lines 91-122)
   ------------------------------------------------------------------ -/

/-- Embeds the eviction loop of `WaveformWidget.set_samples`:
`while len(self.history) > self.max_history: self.history.pop(0)`.
Each iteration removes the head (oldest) element while the length
exceeds the configured maximum `H`. -/
def evict (H : Nat) : List ℚ → List ℚ
  | [] => []
  | a :: l => if H < l.length + 1 then evict H l else a :: l

/-- Embeds one push into the waveform history
(`self.history.append(rms)` followed by the eviction loop of
`WaveformWidget.set_samples`). -/
def wavePush (H : Nat) (hist : List ℚ) (x : ℚ) : List ℚ :=
  evict H (hist ++ [x])

theorem evict_eq_drop (H : Nat) (l : List ℚ) :
    evict H l = l.drop (l.length - H) := by
  induction l with
  | nil => simp [evict]
  | cons a l ih =>
    simp only [evict]
    split
    · rename_i h
      rw [ih, List.length_cons,
        show l.length + 1 - H = (l.length - H) + 1 by omega,
        List.drop_succ_cons]
    · rename_i h
      rw [List.length_cons, show l.length + 1 - H = 0 by omega,
        List.drop_zero]

theorem wavePush_foldl (H : Nat) (xs : List ℚ) :
    ∀ b : List ℚ, b.length ≤ H →
      xs.foldl (wavePush H) b = (b ++ xs).drop ((b ++ xs).length - H) := by
  induction xs with
  | nil =>
    intro b hb
    simp only [List.foldl_nil, List.append_nil]
    rw [show b.length - H = 0 by omega, List.drop_zero]
  | cons x xs ih =>
    intro b hb
    rw [List.foldl_cons]
    have hlen : (wavePush H b x).length ≤ H := by
      rw [wavePush, evict_eq_drop, List.length_drop]
      omega
    rw [ih _ hlen, wavePush, evict_eq_drop]
    have key : ∀ (l : List ℚ) (d : Nat), d ≤ l.length →
        l.drop d ++ xs = (l ++ xs).drop d := by
      intro l d hd
      rw [List.drop_append_eq_append_drop, show d - l.length = 0 by omega,
        List.drop_zero]
    rw [key (b ++ [x]) ((b ++ [x]).length - H) (Nat.sub_le _ _),
      List.drop_drop,
      show (b ++ [x]) ++ xs = b ++ x :: xs by simp]
    congr 1
    simp only [List.length_drop, List.length_append, List.length_cons,
      List.length_singleton, List.length_nil]
    omega

/-- C1: For every sequence of `push` calls on a waveform buffer with
maximum length `H`, the resulting history never exceeds length `H`,
and it equals exactly the suffix of the pushed sequence consisting of
the last `H` values, in push order (oldest evicted first, no
reordering); in particular after pushing `k > H` samples the stored
history is the last `H` pushed values. -/
theorem waveform_buffer_bounded_fifo (H : Nat) (xs : List ℚ) :
    (xs.foldl (wavePush H) []).length ≤ H ∧
      xs.foldl (wavePush H) [] = xs.drop (xs.length - H) := by
  have h := wavePush_foldl H xs [] (by simp)
  simp only [List.nil_append] at h
  refine ⟨?_, h⟩
  rw [h, List.length_drop]
  omega

/- ------------------------------------------------------------------
   AudioMonitor.read_samples (audio_monitor.py, lines 74-89)
   ------------------------------------------------------------------ -/

/-- Embeds the decoding of one little-endian signed 16-bit machine
integer (`struct.unpack` format `h`, native little-endian order) from
two raw bytes. -/
def s16 (lo hi : Nat) : Int :=
  let v : Int := (lo : Int) + 256 * (hi : Int)
  if v < 32768 then v else v - 65536

/-- Embeds `struct.unpack(f"{num_samples}h", data)`: decode consecutive
byte pairs as little-endian signed 16-bit integers. -/
def decodeS16LE : List Nat → List Int
  | lo :: hi :: rest => s16 lo hi :: decodeS16LE rest
  | _ => []

/-- Embeds `AudioMonitor.read_samples(num_samples)`.

The capture process is modelled as `Option (List Nat)`: `none` when
`self.process` is unset (never opened, or closed), `some avail` with
`avail` the raw bytes currently available on the non-blocking stdout
pipe.  `self.process.stdout.read(num_samples * 2)` on a non-blocking
descriptor returns at most the requested number of currently available
bytes, modelled as `avail.take (2 * n)`; the empty/short read, the
`BlockingIOError` branch and the bare `except` all return
`[0] * num_samples`. -/
def read_samples (proc : Option (List Nat)) (n : Nat) : List ℚ :=
  match proc with
  | none => List.replicate n 0
  | some avail =>
    let data := avail.take (2 * n)
    if data.isEmpty || data.length < 2 * n then List.replicate n 0
    else (decodeS16LE data).map (fun (s : Int) => (s : ℚ) / 32768)

theorem decodeS16LE_length : ∀ l : List Nat, (decodeS16LE l).length = l.length / 2
  | [] => by simp [decodeS16LE]
  | [a] => by simp [decodeS16LE]
  | _ :: _ :: rest => by
    simp only [decodeS16LE, List.length_cons, decodeS16LE_length rest]
    omega

/-- C2: For every `n ≥ 1`, `read_samples n` on an open capture source
returns exactly `n` samples, and whenever fewer than `2*n` raw bytes
are currently available on the capture pipe the `n` returned samples
are all zero (silence); the function is total (no exception escapes)
and reads only what is already available (no blocking). -/
theorem read_samples_exact_count_and_underrun_silence
    (n : Nat) (_hn : 1 ≤ n) (proc : Option (List Nat)) :
    (read_samples proc n).length = n ∧
      (∀ avail, proc = some avail → avail.length < 2 * n →
        read_samples proc n = List.replicate n 0) := by
  constructor
  · match proc with
    | none => simp [read_samples]
    | some avail =>
      simp only [read_samples]
      split
      · exact List.length_replicate n 0
      · rename_i h
        rw [List.length_map, decodeS16LE_length, List.length_take]
        simp only [Bool.or_eq_true, List.isEmpty_iff, decide_eq_true_eq,
          not_or] at h
        rw [List.length_take] at h
        omega
  · intro avail hp hlt
    subst hp
    simp only [read_samples]
    have : (avail.take (2 * n)).length < 2 * n := by
      rw [List.length_take]
      omega
    split
    · rfl
    · rename_i h
      simp only [Bool.or_eq_true, decide_eq_true_eq, not_or] at h
      omega

/-- Witness for C2 at a concrete input: `n = 2` with only three bytes
available yields exactly two samples, both zero. -/
theorem read_samples_exact_count_and_underrun_silence_witness :
    (read_samples (some [1, 0, 255]) 2).length = 2 ∧
      read_samples (some [1, 0, 255]) 2 = List.replicate 2 0 :=
  ⟨(read_samples_exact_count_and_underrun_silence 2 (by decide)
      (some [1, 0, 255])).1,
   (read_samples_exact_count_and_underrun_silence 2 (by decide)
      (some [1, 0, 255])).2 [1, 0, 255] rfl (by decide)⟩

/-- C10: For every `n ≥ 1`, if no capture process is open (`self.process`
is `None` because the source was never opened or has been closed),
`read_samples(n)` returns exactly `n` zero samples instead of raising:
the closed source reads as silence. -/
theorem read_samples_closed_source_silence (n : Nat) (_hn : 1 ≤ n) :
    read_samples none n = List.replicate n 0 := rfl

/-- Witness for C10 at `n = 3`. -/
theorem read_samples_closed_source_silence_witness :
    read_samples none 3 = List.replicate 3 0 :=
  read_samples_closed_source_silence 3 (by decide)

/- ------------------------------------------------------------------
   Guard enforcement (outputs-to-inputs-adv.py, AudioMixerBase,
   lines 237-278) and GLib timer bookkeeping
   ------------------------------------------------------------------ -/

/-- One `pactl` control command issued by a guard enforcement pass. -/
inductive PactlCmd where
  | setSinkMute : String → String → PactlCmd
  | setSinkVolume : String → String → PactlCmd
  | setSourceMute : String → String → PactlCmd
  | setSourceVolume : String → String → PactlCmd
deriving DecidableEq

/-- Embeds `AudioMixerBase.enforce_mixer_state`.  Returns the ordered
trace of `pactl` commands issued by the pass and the boolean the
callback hands back to GLib (`True` keeps the repeating timer alive,
`False` cancels it).  `res` is the environment's return code for each
`subprocess.run` call; the code discards it (`stderr=DEVNULL`, no
`check=True`), so a failing command can neither raise nor change the
pass. -/
def enforce_mixer_state (guardActive mixerExists : Bool) (target : Int)
    (res : PactlCmd → Int) : List PactlCmd × Bool :=
  if !guardActive || !mixerExists then ([], false)
  else
    let c1 := PactlCmd.setSinkMute "AudioMixer_Virtual" "0"
    let _r1 := res c1
    let c2 := PactlCmd.setSinkVolume "AudioMixer_Virtual" (toString target ++ "%")
    let _r2 := res c2
    ([c1, c2], true)

/-- Embeds `AudioMixerBase.enforce_mic_state`.  `mic` is
`self.mic_combo.get_active_id()` (`none` when no row is active); the
Python truthiness test `if not mic` also treats the empty string as
absent. -/
def enforce_mic_state (guardActive : Bool) (mic : Option String) (vol : Int)
    (res : PactlCmd → Int) : List PactlCmd × Bool :=
  if !guardActive then ([], false)
  else
    match mic with
    | none => ([], true)
    | some m =>
      if m = "" then ([], true)
      else
        let c1 := PactlCmd.setSourceMute m "0"
        let _r1 := res c1
        let c2 := PactlCmd.setSourceVolume m (toString vol ++ "%")
        let _r2 := res c2
        ([c1, c2], true)

/-- State of the advanced-mode window relevant to the two guards.
`liveTimers` is the list of GLib timeout source ids currently
installed (`GLib.timeout_add` appends a fresh id, `GLib.source_remove`
erases one); GLib source ids are positive, so `nextId` starts at 1. -/
structure AdvState where
  mixer_guard_active : Bool
  mixer_guard_timer : Option Nat
  mic_guard_active : Bool
  mic_guard_timer : Option Nat
  mixer_exists : Bool
  liveTimers : List Nat
  nextId : Nat
  mixerPassTrace : List (List PactlCmd)
  micPassTrace : List (List PactlCmd)
deriving DecidableEq

/-- Embeds `GLib.timeout_add`: installs a new repeating source and
returns its fresh id. -/
def timeout_add (s : AdvState) : Nat × AdvState :=
  (s.nextId,
   { s with
     liveTimers := s.liveTimers ++ [s.nextId]
     nextId := s.nextId + 1 })

/-- Embeds `GLib.source_remove`. -/
def source_remove (s : AdvState) (tid : Nat) : AdvState :=
  { s with liveTimers := s.liveTimers.erase tid }

/-- Embeds `AudioMixerBase.on_mixer_guard_toggled`.  On arm: set the
active flag, install a repeating 1500 ms timer (overwriting the stored
id without removing any previously installed source), then run one
immediate `enforce_mixer_state` pass, appending its command trace.  On
disarm: clear the flag and remove the stored timer source if set
(`if self.mixer_guard_timer: GLib.source_remove(...)`). -/
def on_mixer_guard_toggled (s : AdvState) (state : Bool) (target : Int)
    (res : PactlCmd → Int) : AdvState :=
  if state then
    let s1 := { s with mixer_guard_active := true }
    let ts := timeout_add s1
    let s3 := { ts.2 with mixer_guard_timer := some ts.1 }
    let pass := enforce_mixer_state s3.mixer_guard_active s3.mixer_exists target res
    { s3 with mixerPassTrace := s3.mixerPassTrace ++ [pass.1] }
  else
    let s1 := { s with mixer_guard_active := false }
    match s1.mixer_guard_timer with
    | some tid => source_remove s1 tid
    | none => s1

/-- Embeds `AudioMixerBase.on_mic_guard_toggled` (same shape as the
mixer guard toggle: install the interval timer, then one immediate
`enforce_mic_state` pass). -/
def on_mic_guard_toggled (s : AdvState) (state : Bool) (mic : Option String)
    (vol : Int) (res : PactlCmd → Int) : AdvState :=
  if state then
    let s1 := { s with mic_guard_active := true }
    let ts := timeout_add s1
    let s3 := { ts.2 with mic_guard_timer := some ts.1 }
    let pass := enforce_mic_state s3.mic_guard_active mic vol res
    { s3 with micPassTrace := s3.micPassTrace ++ [pass.1] }
  else
    let s1 := { s with mic_guard_active := false }
    match s1.mic_guard_timer with
    | some tid => source_remove s1 tid
    | none => s1

/-- The advanced-mode window's initial guard state (both guards off, no
timer installed), with the mixer present. -/
def advInit : AdvState :=
  { mixer_guard_active := false, mixer_guard_timer := none,
    mic_guard_active := false, mic_guard_timer := none,
    mixer_exists := true, liveTimers := [], nextId := 1,
    mixerPassTrace := [], micPassTrace := [] }

/-- C3 counterexample: an armed mixer guard whose pass runs while the
virtual mixer is absent (`self.mixer_exists == False`, reachable by
deleting the mixer while the guard is armed) issues neither the mute
nor the volume command, and returns `False`, which cancels the
repeating GLib schedule — contradicting the claim that every pass of an
armed guard first sets mute, then volume, and keeps the guard running. -/
theorem enforce_pass_mixer_absent_counterexample :
    enforce_mixer_state true false 75 (fun _ => 0) = ([], false) := rfl

/-- C3 (amended): Every enforcement pass of an armed guard whose target
is present (mixer exists for the mixer guard; a non-empty mic id is
selected for the mic guard) first sets the target's mute to false and
then sets the target's volume to the configured percentage, in that
order; the return codes of both control commands are discarded, so the
result is independent of any command failure (the pass cannot raise)
and the callback returns `True`, keeping the guard running.  A
mixer-guard pass with the mixer absent instead issues no commands and
returns `False`, stopping the schedule. -/
theorem guard_pass_mute_then_volume :
    (∀ (target : Int) (res res2 : PactlCmd → Int),
      enforce_mixer_state true true target res =
        ([PactlCmd.setSinkMute "AudioMixer_Virtual" "0",
          PactlCmd.setSinkVolume "AudioMixer_Virtual" (toString target ++ "%")],
         true) ∧
      enforce_mixer_state true true target res =
        enforce_mixer_state true true target res2) ∧
    (∀ (m : String) (vol : Int) (res res2 : PactlCmd → Int), m ≠ "" →
      enforce_mic_state true (some m) vol res =
        ([PactlCmd.setSourceMute m "0",
          PactlCmd.setSourceVolume m (toString vol ++ "%")], true) ∧
      enforce_mic_state true (some m) vol res =
        enforce_mic_state true (some m) vol res2) ∧
    (∀ (target : Int) (res : PactlCmd → Int),
      enforce_mixer_state true false target res = ([], false)) := by
  refine ⟨fun target res res2 => ⟨rfl, rfl⟩, fun m vol res res2 hm => ⟨?_, rfl⟩,
    fun target res => rfl⟩
  simp [enforce_mic_state, hm]

/-- Witness for the amended C3 at a concrete input. -/
theorem guard_pass_mute_then_volume_witness :
    enforce_mic_state true (some "mic0") 80 (fun _ => 0) =
      ([PactlCmd.setSourceMute "mic0" "0",
        PactlCmd.setSourceVolume "mic0" (toString (80 : Int) ++ "%")], true) :=
  (guard_pass_mute_then_volume.2.1 "mic0" 80 (fun _ => 0) (fun _ => 1)
    (by decide)).1

/-- C6: evaluation of the code at the failing input.  Toggling the
mixer guard on twice in a row (exactly what `restore_mixer_guard` does
during a window switch: `set_active(True)` fires the `state-set`
handler and then the handler is invoked again explicitly) leaves BOTH
repeating timer sources installed: the stored id is overwritten with
the new source's id and the old source is never removed, so two
periodic enforcement schedules run for the same target, contradicting
the spec's requirement that re-arming replaces (not stacks) the
previous schedule. -/
theorem rearm_stacks_guard_timers :
    (on_mixer_guard_toggled
        (on_mixer_guard_toggled advInit true 100 (fun _ => 0))
        true 100 (fun _ => 0)).liveTimers = [1, 2] ∧
    (on_mixer_guard_toggled
        (on_mixer_guard_toggled advInit true 100 (fun _ => 0))
        true 100 (fun _ => 0)).mixer_guard_timer = some 2 :=
  ⟨rfl, rfl⟩

/-- C7: Arming a guard from a quiescent state (no live timer) performs
exactly one enforcement pass synchronously within the arm operation
(the pass trace grows by exactly one pass, which issues mute-then-
volume), and installs exactly one repeating schedule; disarming before
the first scheduled tick fires removes that schedule, so afterwards no
timer source remains (zero scheduled passes can ever run) and the pass
trace is unchanged — one pass in total.  Stated for both the mixer
guard and the microphone guard. -/
theorem arm_disarm_single_immediate_pass (s : AdvState) (target vol : Int)
    (m : String) (res : PactlCmd → Int)
    (h2 : s.liveTimers = []) (h3 : s.mixer_exists = true) (hm : m ≠ "") :
    (on_mixer_guard_toggled s true target res).mixerPassTrace =
      s.mixerPassTrace ++
        [[PactlCmd.setSinkMute "AudioMixer_Virtual" "0",
          PactlCmd.setSinkVolume "AudioMixer_Virtual" (toString target ++ "%")]] ∧
    (on_mixer_guard_toggled s true target res).liveTimers = [s.nextId] ∧
    (on_mixer_guard_toggled (on_mixer_guard_toggled s true target res)
        false target res).liveTimers = [] ∧
    (on_mixer_guard_toggled (on_mixer_guard_toggled s true target res)
        false target res).mixerPassTrace =
      (on_mixer_guard_toggled s true target res).mixerPassTrace ∧
    (on_mic_guard_toggled s true (some m) vol res).micPassTrace =
      s.micPassTrace ++
        [[PactlCmd.setSourceMute m "0",
          PactlCmd.setSourceVolume m (toString vol ++ "%")]] ∧
    (on_mic_guard_toggled s true (some m) vol res).liveTimers = [s.nextId] ∧
    (on_mic_guard_toggled (on_mic_guard_toggled s true (some m) vol res)
        false (some m) vol res).liveTimers = [] ∧
    (on_mic_guard_toggled (on_mic_guard_toggled s true (some m) vol res)
        false (some m) vol res).micPassTrace =
      (on_mic_guard_toggled s true (some m) vol res).micPassTrace := by
  refine ⟨?_, ?_, ?_, ?_, ?_, ?_, ?_, ?_⟩ <;>
    simp [on_mixer_guard_toggled, on_mic_guard_toggled, timeout_add,
      source_remove, enforce_mixer_state, enforce_mic_state, h2, h3, hm]

/-- Witness for C7 at the initial advanced-mode state. -/
theorem arm_disarm_single_immediate_pass_witness :
    (on_mixer_guard_toggled (on_mixer_guard_toggled advInit true 75 (fun _ => 0))
        false 75 (fun _ => 0)).liveTimers = [] ∧
    (on_mixer_guard_toggled advInit true 75 (fun _ => 0)).mixerPassTrace =
      [[PactlCmd.setSinkMute "AudioMixer_Virtual" "0",
        PactlCmd.setSinkVolume "AudioMixer_Virtual" (toString (75 : Int) ++ "%")]] := by
  have h := arm_disarm_single_immediate_pass advInit 75 100 "mic0" (fun _ => 0)
    rfl rfl (by decide)
  exact ⟨h.2.2.1, by simpa [advInit] using h.1⟩

/- ------------------------------------------------------------------
   Connection state machine (outputs-to-inputs.py, AudioMixerGUI)
   ------------------------------------------------------------------ -/

/-- The status surface shown by `AudioMixerGUI` (status circle glyph +
label): ⚪ Disconnected, 🟡 Connecting, 🟢 Connected, 🔴 "Monitor
Stopped" (the Error surface of the spec's state machine), 🟡
Disconnecting. -/
inductive ConnStatus where
  | disconnected
  | connecting
  | connected
  | monitorStopped
  | disconnecting
deriving DecidableEq

/-- The `AudioMixerGUI` fields touched by the connect flow and by the
unexpected-monitor-exit path. -/
structure GuiState where
  is_connected : Bool
  is_connecting : Bool
  shutdown_flag : Bool
  connect_sensitive : Bool
  disconnect_sensitive : Bool
  status : ConnStatus
deriving DecidableEq

/-- Embeds `AudioMixerGUI.on_connect_clicked`.  The boolean result
records whether a background connect worker thread was started.  The
handler rejects (plain early return, nothing queued) only when
`self.is_connecting` is already set; otherwise it sets the connecting
flag and clears the shutdown flag under the state lock, disables the
connect button, shows the Connecting status, and starts exactly one
daemon worker running `connect_thread`. -/
def on_connect_clicked (s : GuiState) : GuiState × Bool :=
  if s.is_connecting then (s, false)
  else
    ({ s with
       is_connecting := true
       shutdown_flag := false
       connect_sensitive := false
       status := ConnStatus.connecting }, true)

/-- Embeds `AudioMixerGUI.on_monitor_stopped_unexpectedly`.  The `Nat`
result counts "stopped unexpectedly" reports surfaced to the user (the
error dialog shown after the status update). -/
def on_monitor_stopped_unexpectedly (s : GuiState) : GuiState × Nat :=
  if s.shutdown_flag then (s, 0)
  else
    ({ s with
       is_connected := false
       status := ConnStatus.monitorStopped
       connect_sensitive := true
       disconnect_sensitive := true }, 1)

/-- Embeds the tail of `AudioMixerGUI.connect_thread`: after the drain
loop observes that the monitor process has exited
(`self.monitor_process.poll() is not None`), the thread schedules
`on_monitor_stopped_unexpectedly` on the UI context if and only if no
shutdown was requested and the GUI is still connected. -/
def connect_thread_monitor_exit (s : GuiState) : GuiState × Nat :=
  if !s.shutdown_flag && s.is_connected then on_monitor_stopped_unexpectedly s
  else (s, 0)

/-- C4: If the monitor process exits on its own while the GUI is still
Connected and no shutdown was requested, the state machine moves to the
Error surface (🔴 "Monitor Stopped", no longer connected) and the
"stopped unexpectedly" condition is reported to the user exactly once;
no reconnection happens silently — the connect button is merely
re-enabled for a manual reconnect. -/
theorem monitor_exit_reports_error_once (s : GuiState)
    (hconn : s.is_connected = true) (hflag : s.shutdown_flag = false) :
    (connect_thread_monitor_exit s).2 = 1 ∧
      (connect_thread_monitor_exit s).1.status = ConnStatus.monitorStopped ∧
      (connect_thread_monitor_exit s).1.is_connected = false ∧
      (connect_thread_monitor_exit s).1.connect_sensitive = true := by
  simp [connect_thread_monitor_exit, on_monitor_stopped_unexpectedly,
    hconn, hflag]

/-- Witness for C4 at the concrete Connected state. -/
theorem monitor_exit_reports_error_once_witness :
    (connect_thread_monitor_exit
        { is_connected := true, is_connecting := false, shutdown_flag := false,
          connect_sensitive := false, disconnect_sensitive := true,
          status := ConnStatus.connected }).2 = 1 ∧
    (connect_thread_monitor_exit
        { is_connected := true, is_connecting := false, shutdown_flag := false,
          connect_sensitive := false, disconnect_sensitive := true,
          status := ConnStatus.connected }).1.status =
      ConnStatus.monitorStopped :=
  have h := monitor_exit_reports_error_once
    { is_connected := true, is_connecting := false, shutdown_flag := false,
      connect_sensitive := false, disconnect_sensitive := true,
      status := ConnStatus.connected } rfl rfl
  ⟨h.1, h.2.1⟩

/-- C5 counterexample: in the Connected-but-idle state
(`is_connected = True`, `is_connecting = False`, as after
`finish_connection(True)`), `on_connect_clicked` is NOT rejected: the
handler checks only `self.is_connecting`, so it starts a second
background connect worker even though the state machine is already
Connected (in the running GUI this path is blocked only by the connect
button having been made insensitive, not by the handler). -/
theorem connect_clicked_connected_counterexample :
    (on_connect_clicked
        { is_connected := true, is_connecting := false, shutdown_flag := false,
          connect_sensitive := false, disconnect_sensitive := true,
          status := ConnStatus.connected }).2 = true := rfl

/-- C5 (amended): `connect()` is rejected by the handler when the state
machine is already Connecting (the handler does not itself check
Connected; while Connected the click is prevented by the disabled
connect button instead): calling `connect()` twice in succession
without waiting starts only one background worker — the first call
starts a worker and sets the connecting flag, the second call is
rejected immediately and leaves the state untouched (nothing is
queued). -/
theorem connect_twice_single_worker (s : GuiState) :
    (s.is_connecting = true → on_connect_clicked s = (s, false)) ∧
      (s.is_connecting = false →
        (on_connect_clicked s).2 = true ∧
          (on_connect_clicked (on_connect_clicked s).1).2 = false ∧
          (on_connect_clicked (on_connect_clicked s).1).1 =
            (on_connect_clicked s).1) := by
  constructor
  · intro h
    simp [on_connect_clicked, h]
  · intro h
    simp [on_connect_clicked, h]

/-- Witness for the amended C5 from the idle Disconnected state. -/
theorem connect_twice_single_worker_witness :
    (on_connect_clicked
        { is_connected := false, is_connecting := false, shutdown_flag := false,
          connect_sensitive := true, disconnect_sensitive := false,
          status := ConnStatus.disconnected }).2 = true ∧
    (on_connect_clicked (on_connect_clicked
        { is_connected := false, is_connecting := false, shutdown_flag := false,
          connect_sensitive := true, disconnect_sensitive := false,
          status := ConnStatus.disconnected }).1).2 = false :=
  have h := (connect_twice_single_worker
    { is_connected := false, is_connecting := false, shutdown_flag := false,
      connect_sensitive := true, disconnect_sensitive := false,
      status := ConnStatus.disconnected }).2 rfl
  ⟨h.1, h.2.1⟩

/- ------------------------------------------------------------------
   Text parsing: AudioMonitor.get_available_sources
   (audio_monitor.py, lines 21-34) and AudioMixerGUI.get_mute_state
   (outputs-to-inputs.py, lines 283-306)
   ------------------------------------------------------------------ -/

/-- Embeds Python's substring test `needle in hay` on strings
(represented as `List Char`). -/
def strContains (hay needle : List Char) : Bool :=
  match hay with
  | [] => needle.isEmpty
  | _ :: t => needle.isPrefixOf hay || strContains t needle

/-- Embeds Python's `str.lower()` on a line. -/
def lowerLine (l : List Char) : List Char := l.map Char.toLower

/-- Embeds Python's `str.split(sep)` for a single-character separator
(keeps empty fields, as Python does). -/
def splitOnChar (sep : Char) : List Char → List (List Char)
  | [] => [[]]
  | c :: rest =>
    match splitOnChar sep rest with
    | [] => [[]]
    | cur :: done =>
      if c == sep then [] :: cur :: done else (c :: cur) :: done

/-- Whitespace stripped by Python's `str.strip()` (the ASCII cases). -/
def pyWhitespace (c : Char) : Bool :=
  c == ' ' || c == '\t' || c == '\n' || c == '\r' || c == '\x0b' || c == '\x0c'

/-- Embeds Python's `str.strip()`. -/
def pyStrip (s : List Char) : List Char :=
  ((s.dropWhile pyWhitespace).reverse.dropWhile pyWhitespace).reverse

/-- Embeds `AudioMonitor.get_available_sources`.  `none` models a
`subprocess.CalledProcessError` from the control tool (`check=True`
and a non-zero exit); `some stdout` is the tool's standard output.
For each non-empty line of `stdout.strip().split('\n')`, the line is
split on tabs and the second field is collected when the line has at
least two fields. -/
def get_available_sources (out : Option (List Char)) : List (List Char) :=
  match out with
  | none => []
  | some stdout =>
    (splitOnChar '\n' (pyStrip stdout)).filterMap fun line =>
      if line.isEmpty then none
      else
        match splitOnChar '\t' line with
        | _ :: second :: _ => some second
        | _ => none

/-- The fixed virtual-device identifier `"AudioMixer_Virtual"`. -/
def mixerNameChars : List Char := "AudioMixer_Virtual".toList

/-- The `"Mute:"` marker scraped from the detailed sink listing. -/
def muteMark : List Char := "Mute:".toList

/-- The `"Sink #"` block terminator of the detailed listing. -/
def sinkMark : List Char := "Sink #".toList

/-- The `"Source #"` block terminator of the detailed listing. -/
def sourceMark : List Char := "Source #".toList

/-- The `"yes"` token sought (case-insensitively) in the mute line. -/
def yesChars : List Char := "yes".toList

/-- Embeds the scanning loop of `AudioMixerGUI.get_mute_state` over the
split lines, with `inSink` the `in_mixer_sink` flag: a line containing
the device name sets the flag; once the flag is set, the first line
containing `"Mute:"` decides the result (`"yes" in line.lower()`), and
a line containing `"Sink #"` or `"Source #"` breaks the loop, after
which `False` is returned. -/
def get_mute_state_scan : List (List Char) → Bool → Bool
  | [], _ => false
  | l :: ls, inSink =>
    if strContains l mixerNameChars then get_mute_state_scan ls true
    else if inSink && strContains l muteMark then
      strContains (lowerLine l) yesChars
    else if inSink && (strContains l sinkMark || strContains l sourceMark) then
      false
    else get_mute_state_scan ls inSink

/-- Embeds `AudioMixerGUI.get_mute_state`: `none` models any exception
from the underlying query (the `except` branch), `some stdout` the
detailed `list sinks` output, which is split on newlines and scanned. -/
def get_mute_state (out : Option (List Char)) : Bool :=
  match out with
  | none => false
  | some stdout => get_mute_state_scan (splitOnChar '\n' stdout) false

/-- C9: `get_available_sources` splits each non-empty line of the
control tool's output on tabs and collects the second field of every
line with at least two fields — on the quoted scenario input it yields
exactly `["source.a"]`, on a multi-line input the second fields in
order (skipping lines without a tab) — and a failed control call
yields the empty list instead of raising. -/
theorem list_sources_second_fields :
    get_available_sources
        (some ("0\tsource.a\tmodule\ts16le 1ch 44100Hz\tIDLE\n".toList)) =
      ["source.a".toList] ∧
    get_available_sources
        (some ("0\ta.b\tm\n1\tc.d\tm\nnofield\n".toList)) =
      ["a.b".toList, "c.d".toList] ∧
    get_available_sources none = [] := by
  refine ⟨by decide, by decide, rfl⟩

/-- A line that terminates the device's block in the detailed listing
(`"Sink #" in line or "Source #" in line`). -/
def blockEnd (l : List Char) : Bool :=
  strContains l sinkMark || strContains l sourceMark

/-- A mute line answering yes: `"Mute:" in line` and
`"yes" in line.lower()`. -/
def muteYes (l : List Char) : Bool :=
  strContains l muteMark && strContains (lowerLine l) yesChars

theorem scan_skips_name_free_lead (pre ls : List (List Char))
    (h : ∀ l ∈ pre, strContains l mixerNameChars = false) :
    get_mute_state_scan (pre ++ ls) false = get_mute_state_scan ls false := by
  induction pre with
  | nil => rfl
  | cons p pre ih =>
    have hp : strContains p mixerNameChars = false := h p (by simp)
    have ht : ∀ l ∈ pre, strContains l mixerNameChars = false :=
      fun l hl => h l (by simp [hl])
    simp [get_mute_state_scan, hp, ih ht]

theorem scan_in_block (rest : List (List Char))
    (hmix : ∀ l ∈ rest, strContains l mixerNameChars = true →
      strContains l muteMark = false ∧ blockEnd l = false)
    (hmm : ∀ l ∈ rest, strContains l muteMark = true → blockEnd l = false)
    (huniq : ((rest.takeWhile fun l => !blockEnd l).countP
      fun l => strContains l muteMark) ≤ 1) :
    get_mute_state_scan rest true =
      (rest.takeWhile fun l => !blockEnd l).any muteYes := by
  induction rest with
  | nil => rfl
  | cons l ls ih =>
    have hmix' : ∀ x ∈ ls, strContains x mixerNameChars = true →
        strContains x muteMark = false ∧ blockEnd x = false :=
      fun x hx => hmix x (by simp [hx])
    have hmm' : ∀ x ∈ ls, strContains x muteMark = true → blockEnd x = false :=
      fun x hx => hmm x (by simp [hx])
    by_cases hname : strContains l mixerNameChars = true
    · obtain ⟨hm1, hb1⟩ := hmix l (by simp) hname
      have htw : (l :: ls).takeWhile (fun x => !blockEnd x) =
          l :: ls.takeWhile (fun x => !blockEnd x) := by
        rw [List.takeWhile_cons_of_pos]
        simp [hb1]
      rw [htw] at huniq
      rw [List.countP_cons] at huniq
      simp only [hm1] at huniq
      simp only [get_mute_state_scan, hname, if_true, htw, List.any_cons,
        muteYes, hm1, Bool.false_and, Bool.false_or]
      exact ih hmix' hmm' (by omega)
    · have hnameF : strContains l mixerNameChars = false := by
        simpa using hname
      by_cases hmute : strContains l muteMark = true
      · have hb1 : blockEnd l = false := hmm l (by simp) hmute
        have htw : (l :: ls).takeWhile (fun x => !blockEnd x) =
            l :: ls.takeWhile (fun x => !blockEnd x) := by
          rw [List.takeWhile_cons_of_pos]
          simp [hb1]
        rw [htw] at huniq
        rw [List.countP_cons] at huniq
        simp only [hmute, if_true] at huniq
        have hzero : ((ls.takeWhile fun x => !blockEnd x).countP
            fun x => strContains x muteMark) = 0 := by omega
        have hnomute : ∀ x ∈ ls.takeWhile fun x => !blockEnd x,
            ¬(strContains x muteMark = true) :=
          List.countP_eq_zero.mp hzero
        have hany : (ls.takeWhile fun x => !blockEnd x).any muteYes = false := by
          rw [List.any_eq_false]
          intro x hx
          have := hnomute x hx
          simp only [muteYes]
          intro hc
          rw [Bool.and_eq_true] at hc
          exact this hc.1
        simp only [get_mute_state_scan, hnameF, Bool.false_eq_true, if_false,
          hmute, Bool.true_and, if_true, htw, List.any_cons, hany,
          Bool.or_false, muteYes, Bool.true_and]
      · have hmuteF : strContains l muteMark = false := by simpa using hmute
        by_cases hterm : blockEnd l = true
        · have htw : (l :: ls).takeWhile (fun x => !blockEnd x) = [] := by
            rw [List.takeWhile_cons_of_neg]
            simp [hterm]
          simp only [get_mute_state_scan, hnameF, Bool.false_eq_true, if_false,
            hmuteF, Bool.and_false, blockEnd] at *
          rw [htw]
          simp only [List.any_nil]
          have : (strContains l sinkMark || strContains l sourceMark) = true := hterm
          simp [this]
        · have htermF : blockEnd l = false := by simpa using hterm
          have htw : (l :: ls).takeWhile (fun x => !blockEnd x) =
              l :: ls.takeWhile (fun x => !blockEnd x) := by
            rw [List.takeWhile_cons_of_pos]
            simp [htermF]
          rw [htw] at huniq
          rw [List.countP_cons] at huniq
          simp only [hmuteF] at huniq
          have hterm2 : (strContains l sinkMark || strContains l sourceMark) = false := htermF
          simp only [get_mute_state_scan, hnameF, Bool.false_eq_true, if_false,
            hmuteF, Bool.and_false, hterm2, htw, List.any_cons, muteYes,
            Bool.false_and, Bool.false_or]
          exact ih hmix' hmm' (by omega)

/-- C8: `get_mute_state` scans the detailed sink listing line by line:
with the underlying query failed it returns false; with no line
containing the device name (no block found) it returns false; and for
a listing that decomposes as a name-free prefix, the first line
containing the device name, and the remaining lines — where (as in
every real `pactl list sinks` output) no line mixes the device name or
a `"Mute:"` marker with a `"Sink #"`/`"Source #"` block terminator and
the block holds at most one `"Mute:"` line — the result is true iff a
line of the block (the lines before the next block terminator)
containing `"Mute:"` also contains `"yes"` case-insensitively. -/
theorem query_muted_block_scan :
    get_mute_state none = false ∧
    (∀ stdout : List Char,
      (∀ l ∈ splitOnChar '\n' stdout, strContains l mixerNameChars = false) →
      get_mute_state (some stdout) = false) ∧
    (∀ stdout : List Char, get_mute_state (some stdout) =
      get_mute_state_scan (splitOnChar '\n' stdout) false) ∧
    (∀ pre rest : List (List Char), ∀ opener : List Char,
      (∀ l ∈ pre, strContains l mixerNameChars = false) →
      strContains opener mixerNameChars = true →
      (∀ l ∈ rest, strContains l mixerNameChars = true →
        strContains l muteMark = false ∧ blockEnd l = false) →
      (∀ l ∈ rest, strContains l muteMark = true → blockEnd l = false) →
      ((rest.takeWhile fun l => !blockEnd l).countP
        fun l => strContains l muteMark) ≤ 1 →
      get_mute_state_scan (pre ++ opener :: rest) false =
        (rest.takeWhile fun l => !blockEnd l).any muteYes) := by
  refine ⟨rfl, ?_, fun stdout => rfl, ?_⟩
  · intro stdout h
    show get_mute_state_scan (splitOnChar '\n' stdout) false = false
    rw [show splitOnChar '\n' stdout = splitOnChar '\n' stdout ++ [] by simp,
      scan_skips_name_free_lead _ _ (by simpa using h)]
    rfl
  · intro pre rest opener hpre hopen hmix hmm huniq
    rw [scan_skips_name_free_lead pre _ hpre]
    show get_mute_state_scan (opener :: rest) false = _
    simp only [get_mute_state_scan, hopen, if_true]
    exact scan_in_block rest hmix hmm huniq

/-- Witness for C8 on a concrete detailed listing: the block of
`AudioMixer_Virtual` contains `Mute: yes`, so the scan answers true;
the `Mute: no` of the next block is ignored. -/
theorem query_muted_block_scan_witness :
    get_mute_state_scan
        (["Sink #0".toList] ++ "\tName: AudioMixer_Virtual".toList ::
          ["\tMute: yes".toList, "Sink #1".toList, "\tMute: no".toList]) false =
      (["\tMute: yes".toList, "Sink #1".toList, "\tMute: no".toList].takeWhile
        fun l => !blockEnd l).any muteYes ∧
    get_mute_state_scan
        (["Sink #0".toList] ++ "\tName: AudioMixer_Virtual".toList ::
          ["\tMute: yes".toList, "Sink #1".toList, "\tMute: no".toList]) false =
      true :=
  have h := query_muted_block_scan.2.2.2 ["Sink #0".toList]
    ["\tMute: yes".toList, "Sink #1".toList, "\tMute: no".toList]
    ("\tName: AudioMixer_Virtual".toList)
    (by decide) (by decide) (by decide) (by decide) (by decide)
  ⟨h, by rw [h]; decide⟩

end AudioShare
